import Mathlib

/-!
Verification of the terminal lifecycle and event-multiplexing subsystem
(`src/tui.rs`, `src/event.rs`).

The embedding is shallow:

* Terminal mode state (raw mode, alternate screen, mouse capture, bracketed
  paste) is a record of four booleans; the crossterm toggles are modelled as
  transitions on that record.  `is_raw_mode_enabled()` is modelled as reading
  the `raw` flag (the model state is the terminal reality the query reports).
* Fallible terminal toggles are modelled with a failure oracle
  `fail : Op → Bool`; a `?` in the Rust source becomes an early return of
  `Except.error op`.
* The background poller task's `tokio::select!` loop is modelled by a list of
  race winners (which branch became ready at each iteration); the loop body
  is translated arm by arm.
* The unbounded channel send is modelled by a flag saying whether the
  receiving end is still alive: `UnboundedSender::send` fails exactly when
  the receiver has been dropped, and `.unwrap()` on that failure is a panic,
  modelled as `Except.error`.
* `Tui::stop`'s sleep-and-poll loop is modelled with the task-completion
  status as a function of the number of 1 ms sleeps performed so far; the
  structural `fuel` argument is a modelling artifact and the development
  proves it is never exhausted.
-/

/-- Kind of a key event (crossterm `KeyEventKind`). -/
inductive KeyEventKind
  | Press
  | Repeat
  | Release
deriving DecidableEq

/-- A key event (crossterm `KeyEvent`); code and modifiers are abstracted to
numbers, only `kind` is inspected by the code under verification. -/
structure KeyEvent where
  code : Nat
  modifiers : Nat
  kind : KeyEventKind
deriving DecidableEq

/-- A mouse event (crossterm `MouseEvent`); all fields abstracted to numbers,
the code under verification never inspects them. -/
structure MouseEvent where
  mouseKind : Nat
  column : Nat
  row : Nat
  mouseModifiers : Nat
deriving DecidableEq

/-- A raw terminal input item (crossterm `Event`). -/
inductive CrosstermEvent
  | Key (key : KeyEvent)
  | Mouse (m : MouseEvent)
  | Resize (x : Nat) (y : Nat)
  | FocusLost
  | FocusGained
  | Paste (s : String)
deriving DecidableEq

/-- `TuiEvent` from `src/tui.rs`. -/
inductive TuiEvent
  | Init
  | Quit
  | Error
  | Closed
  | Tick
  | Render
  | FocusGained
  | FocusLost
  | Paste (s : String)
  | Key (key : KeyEvent)
  | Mouse (m : MouseEvent)
  | Resize (x : Nat) (y : Nat)
deriving DecidableEq

/-- `Event` from `src/event.rs` (the thread-based variant's event type). -/
inductive Event
  | Tick
  | Key (key : KeyEvent)
  | Mouse (m : MouseEvent)
  | Resize (w : Nat) (h : Nat)
deriving DecidableEq

/-- The four terminal mode flags tracked by the specification. -/
structure TermFlags where
  raw : Bool
  alt : Bool
  mouseCap : Bool
  pasteCap : Bool
deriving DecidableEq

/-- All mode flags off: the state of a normal terminal. -/
def allOff : TermFlags := ⟨false, false, false, false⟩

/-- The `Tui` configuration fields consulted by `enter`/`exit`:
`self.mouse` and `self.paste`. -/
structure Config where
  mouse : Bool
  paste : Bool
deriving DecidableEq

/-- The fallible terminal toggles performed by `Tui::enter`, in source
order.  (`self.start()` is infallible and touches no mode flag.) -/
inductive EnterOp
  | enableRawMode
  | enterAltHideCursor
  | enableMouseCapture
  | enableBracketedPaste
deriving DecidableEq

/-- Tail of `Tui::enter`: `if self.paste { execute!(EnableBracketedPaste)? }`. -/
def enterAfterMouse (fail : EnterOp → Bool) (c : Config) (t : TermFlags) :
    Except EnterOp Unit × TermFlags :=
  if c.paste then
    if fail EnterOp.enableBracketedPaste then (Except.error EnterOp.enableBracketedPaste, t)
    else (Except.ok (), { t with pasteCap := true })
  else (Except.ok (), t)

/-- `Tui::enter` (`src/tui.rs` lines 228-240), with a failure oracle for each
underlying toggle.  Each `?` propagates the first failure; flags set by
already-completed toggles stay set. -/
def enterWith (fail : EnterOp → Bool) (c : Config) (t : TermFlags) :
    Except EnterOp Unit × TermFlags :=
  if fail EnterOp.enableRawMode then (Except.error EnterOp.enableRawMode, t)
  else
    let t1 := { t with raw := true }
    if fail EnterOp.enterAltHideCursor then (Except.error EnterOp.enterAltHideCursor, t1)
    else
      let t2 := { t1 with alt := true }
      if c.mouse then
        if fail EnterOp.enableMouseCapture then (Except.error EnterOp.enableMouseCapture, t2)
        else enterAfterMouse fail c { t2 with mouseCap := true }
      else enterAfterMouse fail c t2

deriving instance DecidableEq for Except

/-- The fallible terminal operations performed by `Tui::exit`, in source
order (`stop()` always returns success and is modelled separately). -/
inductive ExitOp
  | flushOutput
  | disableBracketedPaste
  | disableMouseCapture
  | leaveAltShowCursor
  | disableRawMode
deriving DecidableEq

/-- Result of running `Tui::exit`: the returned value, the terminal flags
afterwards, and the terminal operations that were attempted. -/
structure ExitOutcome where
  res : Except ExitOp Unit
  flags : TermFlags
  ops : List ExitOp
deriving DecidableEq

/-- Tail of `Tui::exit`: `execute!(LeaveAlternateScreen, cursor::Show)?` then
`disable_raw_mode()?`. -/
def exitFinal (fail : ExitOp → Bool) (t : TermFlags) (ops : List ExitOp) : ExitOutcome :=
  if fail ExitOp.leaveAltShowCursor then
    ⟨Except.error ExitOp.leaveAltShowCursor, t, ops ++ [ExitOp.leaveAltShowCursor]⟩
  else
    let t1 := { t with alt := false }
    if fail ExitOp.disableRawMode then
      ⟨Except.error ExitOp.disableRawMode, t1,
        ops ++ [ExitOp.leaveAltShowCursor, ExitOp.disableRawMode]⟩
    else
      ⟨Except.ok (), { t1 with raw := false },
        ops ++ [ExitOp.leaveAltShowCursor, ExitOp.disableRawMode]⟩

/-- Middle of `Tui::exit`: `if self.mouse { execute!(DisableMouseCapture)? }`. -/
def exitAfterPaste (fail : ExitOp → Bool) (c : Config) (t : TermFlags) (ops : List ExitOp) :
    ExitOutcome :=
  if c.mouse then
    if fail ExitOp.disableMouseCapture then
      ⟨Except.error ExitOp.disableMouseCapture, t, ops ++ [ExitOp.disableMouseCapture]⟩
    else exitFinal fail { t with mouseCap := false } (ops ++ [ExitOp.disableMouseCapture])
  else exitFinal fail t ops

/-- `Tui::exit` (`src/tui.rs` lines 243-258), with a failure oracle.  It
first calls `stop()` (always `Ok`, modelled separately by `stopRun`), then
performs terminal restoration only when `is_raw_mode_enabled()` reports
`true`, i.e. when the `raw` flag is on. -/
def exitWith (fail : ExitOp → Bool) (c : Config) (t : TermFlags) : ExitOutcome :=
  if t.raw then
    if fail ExitOp.flushOutput then ⟨Except.error ExitOp.flushOutput, t, [ExitOp.flushOutput]⟩
    else if c.paste then
      if fail ExitOp.disableBracketedPaste then
        ⟨Except.error ExitOp.disableBracketedPaste, t,
          [ExitOp.flushOutput, ExitOp.disableBracketedPaste]⟩
      else exitAfterPaste fail c { t with pasteCap := false }
        [ExitOp.flushOutput, ExitOp.disableBracketedPaste]
    else exitAfterPaste fail c t [ExitOp.flushOutput]
  else ⟨Except.ok (), t, []⟩

/-- Terminal flags after a successful `enter()`. -/
def enterFlags (c : Config) (t : TermFlags) : TermFlags :=
  (enterWith (fun _ => false) c t).2

/-- Terminal flags after a successful `exit()`. -/
def exitFlags (c : Config) (t : TermFlags) : TermFlags :=
  (exitWith (fun _ => false) c t).flags

/-- The flags of a session that has successfully entered TUI mode from a
normal terminal. -/
def enteredFlags (c : Config) : TermFlags := ⟨true, true, c.mouse, c.paste⟩

/-- A call in a sequence of `enter()`/`exit()` calls. -/
inductive EnterExit
  | enter
  | exit
deriving DecidableEq

/-- Effect of one `enter()`/`exit()` call on the terminal flags (success
path). -/
def sessionStep (c : Config) (t : TermFlags) : EnterExit → TermFlags
  | EnterExit.enter => enterFlags c t
  | EnterExit.exit => exitFlags c t

/-- Terminal flags after a sequence of `enter()`/`exit()` calls. -/
def runSession (c : Config) (t : TermFlags) (seq : List EnterExit) : TermFlags :=
  seq.foldl (sessionStep c) t

/-- Which branch of the poller's four-way `tokio::select!` became ready at
one loop iteration (`src/tui.rs` lines 150-197).  The `input` payload is the
`maybe_event` value: `none` is an exhausted stream, `some (Except.error ())`
a read error, `some (Except.ok e)` a raw input item. -/
inductive RaceWinner
  | cancelled
  | input (maybeEvent : Option (Except Unit CrosstermEvent))
  | tick
  | render
deriving DecidableEq

/-- The `maybe_event` match arm of the poller loop: the events published for
one item delivered by the input stream. -/
def handleInput : Option (Except Unit CrosstermEvent) → List TuiEvent
  | some (Except.error _) => [TuiEvent.Error]
  | none => []
  | some (Except.ok evt) =>
    match evt with
    | CrosstermEvent.Key key =>
      if key.kind = KeyEventKind.Press then [TuiEvent.Key key] else []
    | CrosstermEvent.Mouse m => [TuiEvent.Mouse m]
    | CrosstermEvent.Resize x y => [TuiEvent.Resize x y]
    | CrosstermEvent.FocusLost => [TuiEvent.FocusLost]
    | CrosstermEvent.FocusGained => [TuiEvent.FocusGained]
    | CrosstermEvent.Paste s => [TuiEvent.Paste s]

/-- One iteration of the poller loop: `none` means the loop `break`s
(cancellation arm), `some evs` means `evs` are published and the loop
continues. -/
def pollStep : RaceWinner → Option (List TuiEvent)
  | RaceWinner.cancelled => none
  | RaceWinner.input me => some (handleInput me)
  | RaceWinner.tick => some [TuiEvent.Tick]
  | RaceWinner.render => some [TuiEvent.Render]

/-- The events published by the poller loop for a given sequence of race
winners (stops at the first `cancelled`). -/
def pollLoop : List RaceWinner → List TuiEvent
  | [] => []
  | w :: ws =>
    match pollStep w with
    | none => []
    | some evs => evs ++ pollLoop ws

/-- All events published by the poller task: `Init` is sent before the loop
(`src/tui.rs` line 148), then the loop runs. -/
def pollRun (ws : List RaceWinner) : List TuiEvent :=
  TuiEvent.Init :: pollLoop ws

/-- The race winners the loop actually services: the prefix before the first
`cancelled`. -/
def liveWinners : List RaceWinner → List RaceWinner
  | [] => []
  | w :: ws =>
    match pollStep w with
    | none => []
    | some _ => w :: liveWinners ws

/-- Occurrence count of an event in a published event list. -/
def countTui (ev : TuiEvent) : List TuiEvent → Nat
  | [] => 0
  | e :: es => (if e = ev then 1 else 0) + countTui ev es

/-- Occurrence count of a race winner in a winner list. -/
def countWin (w : RaceWinner) : List RaceWinner → Nat
  | [] => 0
  | x :: xs => (if x = w then 1 else 0) + countWin w xs

/-- The events sent by one iteration of `event_poller` (`src/event.rs` lines
68-99): `polled` is the input item obtained when `event::poll` reported
readiness (`none` when it did not), `tickDue` is whether the tick deadline
elapsed. -/
def eventPollerSends (polled : Option CrosstermEvent) (tickDue : Bool) : List Event :=
  (match polled with
   | none => []
   | some (CrosstermEvent.Key e) =>
     if e.kind = KeyEventKind.Press then [Event.Key e] else []
   | some (CrosstermEvent.Mouse e) => [Event.Mouse e]
   | some (CrosstermEvent.Resize w h) => [Event.Resize w h]
   | some _ => []) ++ (if tickDue then [Event.Tick] else [])

/-- `event_tx.send(ev).unwrap()`: a tokio unbounded send succeeds exactly
while the receiver is alive; when it has been dropped, `send` returns `Err`
and the `.unwrap()` panics the poller task (`Except.error ()`). -/
def sendUnwrap (rxAlive : Bool) (_ev : TuiEvent) : Except Unit Unit :=
  if rxAlive then Except.ok () else Except.error ()

/-- Send a list of events in order, stopping at the first panic. -/
def sendAll (rxAlive : Bool) : List TuiEvent → Except Unit Unit
  | [] => Except.ok ()
  | ev :: evs =>
    match sendUnwrap rxAlive ev with
    | Except.error e => Except.error e
    | Except.ok _ => sendAll rxAlive evs

/-- The poller loop with each publish going through `sendUnwrap`: returns
the published events, or `Except.error ()` if some `.unwrap()` panicked. -/
def pollLoopChecked (rxAlive : Bool) : List RaceWinner → Except Unit (List TuiEvent)
  | [] => Except.ok []
  | w :: ws =>
    match pollStep w with
    | none => Except.ok []
    | some evs =>
      match sendAll rxAlive evs with
      | Except.error e => Except.error e
      | Except.ok _ =>
        match pollLoopChecked rxAlive ws with
        | Except.error e => Except.error e
        | Except.ok rest => Except.ok (evs ++ rest)

/-- The whole poller task with checked sends: `Init` first, then the loop. -/
def pollRunChecked (rxAlive : Bool) (ws : List RaceWinner) : Except Unit (List TuiEvent) :=
  match sendUnwrap rxAlive TuiEvent.Init with
  | Except.error e => Except.error e
  | Except.ok _ =>
    match pollLoopChecked rxAlive ws with
    | Except.error e => Except.error e
    | Except.ok evs => Except.ok (TuiEvent.Init :: evs)

/-- Observable trace of the `while !self.task.is_finished()` loop in
`Tui::stop` (`src/tui.rs` lines 209-222). -/
structure StopTrace where
  sleeps : Nat
  aborted : Bool
  warned : Bool
  fuelExhausted : Bool
deriving DecidableEq

/-- The sleep-and-poll loop of `Tui::stop`.  `finished n` tells whether
`self.task.is_finished()` holds after `n` one-millisecond sleeps; `counter`
is the loop counter; `ab` records whether `self.task.abort()` has been
called.  `fuel` is a structural modelling artifact: the theorems prove it is
never exhausted because the `counter > 100` break fires first. -/
def stopAux (finished : Nat → Bool) : Nat → Nat → Bool → StopTrace
  | 0, counter, ab => ⟨counter, ab, false, true⟩
  | fuel + 1, counter, ab =>
    if finished counter then ⟨counter, ab, false, false⟩
    else
      let c1 := counter + 1
      let ab1 := if c1 > 50 then true else ab
      if c1 > 100 then ⟨c1, ab1, true, false⟩
      else stopAux finished fuel c1 ab1

/-- Result of `Tui::stop`: the returned value (`Ok(())` on every path), the
fact that `self.cancel()` was invoked first, and the loop trace. -/
structure StopOutcome where
  res : Except Unit Unit
  tokenCancelled : Bool
  trace : StopTrace
deriving DecidableEq

/-- `Tui::stop` (`src/tui.rs` lines 206-225): `self.cancel()`, then the
bounded sleep-and-poll loop, then `Ok(())`. -/
def stopRun (finished : Nat → Bool) : StopOutcome :=
  ⟨Except.ok (), true, stopAux finished 102 0 false⟩

/-- The operations `Tui::start` (`src/tui.rs` lines 133-200) performs on the
previous poller task and its coordination state, in source order. -/
inductive StartAction
  | cancelPrevToken
  | installFreshToken
  | cloneEventTx
  | spawnTask
  | awaitPrevTask
  | abortPrevTask
deriving DecidableEq

/-- The action trace of `Tui::start`: `self.cancel()`, install a fresh
`CancellationToken`, clone `event_tx`, assign `self.task = tokio::spawn(..)`
(dropping the previous `JoinHandle` detaches the previous task; it is
neither awaited nor aborted here). -/
def startActions : List StartAction :=
  [StartAction.cancelPrevToken, StartAction.installFreshToken,
   StartAction.cloneEventTx, StartAction.spawnTask]

/-- The public operations of `Tui` relevant to session state. -/
inductive TuiOp
  | enter
  | exit
  | suspend
  | resume
  | start
  | stop
  | cancel
  | takeEventRx
deriving DecidableEq

/-- Session state for the receiver-taking model: the terminal flags plus
whether `event_rx` has been taken (`Tui::new` stores `Some(event_rx)`). -/
structure TuiModel where
  flags : TermFlags
  rxTaken : Bool
deriving DecidableEq

/-- Effect of one public operation on the session state.  `enter`/`resume`
and `exit`/`suspend` update the terminal flags (success path); `start`,
`stop` and `cancel` touch neither the flags nor `event_rx`; only
`take_event_rx` (`src/tui.rs` lines 288-290) takes the receiver. -/
def applyOp (c : Config) (s : TuiModel) : TuiOp → TuiModel
  | TuiOp.enter => { s with flags := enterFlags c s.flags }
  | TuiOp.resume => { s with flags := enterFlags c s.flags }
  | TuiOp.exit => { s with flags := exitFlags c s.flags }
  | TuiOp.suspend => { s with flags := exitFlags c s.flags }
  | TuiOp.start => s
  | TuiOp.stop => s
  | TuiOp.cancel => s
  | TuiOp.takeEventRx => { s with rxTaken := true }

/-- Run a sequence of public operations and record, for each
`take_event_rx` call, whether it returned `Some` (`true`) or `None`
(`false`): `self.event_rx.take()` returns `Some` exactly when the receiver
has not been taken yet. -/
def takeOutputs (c : Config) (s : TuiModel) : List TuiOp → List Bool
  | [] => []
  | op :: rest =>
    match op with
    | TuiOp.takeEventRx => (!s.rxTaken) :: takeOutputs c (applyOp c s op) rest
    | _ => takeOutputs c (applyOp c s op) rest

/-- The session state of a freshly constructed `Tui` in a normal terminal. -/
def initModel : TuiModel := ⟨allOff, false⟩

/-- Expected pattern of `take_event_rx` results: the first call yields the
receiver, all later calls yield nothing. -/
def takePattern : Nat → List Bool
  | 0 => []
  | n + 1 => true :: List.replicate n false

/-- Occurrence count of a public operation in an operation list. -/
def countOps (op : TuiOp) : List TuiOp → Nat
  | [] => 0
  | x :: xs => (if x = op then 1 else 0) + countOps op xs

/-- Failure oracle under which the `EnterAlternateScreen`/`cursor::Hide`
write fails and every other toggle succeeds. -/
def failAltOracle : EnterOp → Bool := fun op => decide (op = EnterOp.enterAltHideCursor)

lemma enterFlags_allOff (c : Config) : enterFlags c allOff = enteredFlags c := by
  rcases c with ⟨m, p⟩
  cases m <;> cases p <;> rfl

lemma enterFlags_entered (c : Config) : enterFlags c (enteredFlags c) = enteredFlags c := by
  rcases c with ⟨m, p⟩
  cases m <;> cases p <;> rfl

lemma exitFlags_allOff (c : Config) : exitFlags c allOff = allOff := rfl

lemma exitFlags_entered (c : Config) : exitFlags c (enteredFlags c) = allOff := by
  rcases c with ⟨m, p⟩
  cases m <;> cases p <;> rfl

lemma runSession_reach (c : Config) :
    ∀ (seq : List EnterExit) (t : TermFlags), t = allOff ∨ t = enteredFlags c →
      runSession c t seq = allOff ∨ runSession c t seq = enteredFlags c := by
  intro seq
  induction seq with
  | nil => intro t h; simpa [runSession] using h
  | cons e rest ih =>
    intro t h
    have hstep : sessionStep c t e = allOff ∨ sessionStep c t e = enteredFlags c := by
      cases e with
      | enter =>
        right
        rcases h with h | h <;> rw [h] <;> simp [sessionStep, enterFlags_allOff, enterFlags_entered]
      | exit =>
        left
        rcases h with h | h <;> rw [h] <;> simp [sessionStep, exitFlags_allOff, exitFlags_entered]
    have hrw : runSession c t (e :: rest) = runSession c (sessionStep c t e) rest := rfl
    rw [hrw]
    exact ih (sessionStep c t e) hstep

/-- C1 (corrected): starting from a normal terminal (all four mode flags
off), every sequence of `enter()`/`exit()` calls that ends with `exit()` —
as every session does, since `Drop for Tui` calls `exit()` — leaves the
terminal mode flags equal to their all-off state before the first
`enter()`; moreover after `enter()` returns, raw mode and the alternate
screen are on, and after `exit()` returns all four flags are off. -/
theorem enter_exit_sequences_restore (c : Config) (seq : List EnterExit) :
    runSession c allOff (seq ++ [EnterExit.exit]) = allOff ∧
    (runSession c allOff (seq ++ [EnterExit.enter])).raw = true ∧
    (runSession c allOff (seq ++ [EnterExit.enter])).alt = true := by
  have hreach := runSession_reach c seq allOff (Or.inl rfl)
  have hexit : runSession c allOff (seq ++ [EnterExit.exit]) =
      exitFlags c (runSession c allOff seq) := by
    simp [runSession, List.foldl_append, sessionStep]
  have henter : runSession c allOff (seq ++ [EnterExit.enter]) =
      enterFlags c (runSession c allOff seq) := by
    simp [runSession, List.foldl_append, sessionStep]
  refine ⟨?_, ?_, ?_⟩
  · rw [hexit]
    rcases hreach with h | h <;> rw [h] <;> simp [exitFlags_allOff, exitFlags_entered]
  · rw [henter]
    rcases hreach with h | h
    · rw [h, enterFlags_allOff]; rfl
    · rw [h, enterFlags_entered]; rfl
  · rw [henter]
    rcases hreach with h | h
    · rw [h, enterFlags_allOff]; rfl
    · rw [h, enterFlags_entered]; rfl

/-- C1 counterexample: after the sequence consisting of a single `enter()`
call, the terminal mode flags do not equal their (all-off) state before the
first `enter()` — raw mode and the alternate screen are on. -/
theorem enter_only_not_restored :
    runSession ⟨false, false⟩ allOff [EnterExit.enter] ≠ allOff := by decide

/-- C4 (confirmed): calling `exit()` when raw mode is not currently enabled
performs no terminal mode operation, leaves the flags unchanged and returns
success, whatever the failure oracle and configuration. -/
theorem exit_idempotent (c : Config) (fail : ExitOp → Bool) (t : TermFlags)
    (h : t.raw = false) : exitWith fail c t = ⟨Except.ok (), t, []⟩ := by
  simp [exitWith, h]

/-- C4 witness: a second `exit()` from the restored state performs no
operation and succeeds even when every terminal toggle would fail. -/
theorem exit_idempotent_witness :
    exitWith (fun _ => true) ⟨true, true⟩ allOff = ⟨Except.ok (), allOff, []⟩ :=
  exit_idempotent ⟨true, true⟩ (fun _ => true) allOff rfl

lemma key_mem_handleInput (me : Option (Except Unit CrosstermEvent)) (k : KeyEvent) :
    TuiEvent.Key k ∈ handleInput me ↔
      (k.kind = KeyEventKind.Press ∧ me = some (Except.ok (CrosstermEvent.Key k))) := by
  match me with
  | none => simp [handleInput]
  | some (Except.error e) => simp [handleInput]
  | some (Except.ok evt) =>
    cases evt with
    | Key key =>
      by_cases hk : key.kind = KeyEventKind.Press
      · constructor
        · intro hmem
          simp [handleInput, hk] at hmem
          subst hmem
          exact ⟨hk, rfl⟩
        · intro hr
          have : key = k := by
            have := hr.2
            simp at this
            exact this
          subst this
          simp [handleInput, hk]
      · constructor
        · intro hmem
          simp [handleInput, hk] at hmem
        · intro hr
          have : key = k := by
            have := hr.2
            simp at this
            exact this
          subst this
          exact absurd hr.1 hk
    | Mouse m => simp [handleInput]
    | Resize x y => simp [handleInput]
    | FocusLost => simp [handleInput]
    | FocusGained => simp [handleInput]
    | Paste s => simp [handleInput]

lemma key_mem_pollLoop (k : KeyEvent) :
    ∀ ws : List RaceWinner, TuiEvent.Key k ∈ pollLoop ws ↔
      (k.kind = KeyEventKind.Press ∧
        RaceWinner.input (some (Except.ok (CrosstermEvent.Key k))) ∈ liveWinners ws) := by
  intro ws
  induction ws with
  | nil => simp [pollLoop, liveWinners]
  | cons w rest ih =>
    cases w with
    | cancelled => simp [pollLoop, liveWinners, pollStep]
    | input me =>
      simp only [pollLoop, liveWinners, pollStep, List.mem_append, List.mem_cons]
      rw [key_mem_handleInput]
      constructor
      · rintro (⟨h1, h2⟩ | hmem)
        · exact ⟨h1, Or.inl (by rw [h2])⟩
        · have := ih.mp hmem
          exact ⟨this.1, Or.inr this.2⟩
      · rintro ⟨h1, h2 | h2⟩
        · left
          refine ⟨h1, ?_⟩
          injection h2 with h3
          exact h3.symm
        · right
          exact ih.mpr ⟨h1, h2⟩
    | tick =>
      simp only [pollLoop, liveWinners, pollStep, List.mem_append, List.mem_cons]
      simp [ih]
    | render =>
      simp only [pollLoop, liveWinners, pollStep, List.mem_append, List.mem_cons]
      simp [ih]

lemma event_key_mem (polled : Option CrosstermEvent) (tickDue : Bool) (k : KeyEvent) :
    Event.Key k ∈ eventPollerSends polled tickDue ↔
      (polled = some (CrosstermEvent.Key k) ∧ k.kind = KeyEventKind.Press) := by
  cases polled with
  | none => cases tickDue <;> simp [eventPollerSends]
  | some evt =>
    cases evt with
    | Key key =>
      by_cases hk : key.kind = KeyEventKind.Press
      · cases tickDue <;> constructor
        · intro hmem
          simp [eventPollerSends, hk] at hmem
          subst hmem
          exact ⟨rfl, hk⟩
        · rintro ⟨h1, h2⟩
          injection h1 with h3
          injection h3 with h4
          subst h4
          simp [eventPollerSends, hk]
        · intro hmem
          simp [eventPollerSends, hk] at hmem
          subst hmem
          exact ⟨rfl, hk⟩
        · rintro ⟨h1, h2⟩
          injection h1 with h3
          injection h3 with h4
          subst h4
          simp [eventPollerSends, hk]
      · cases tickDue <;> constructor
        · intro hmem
          simp [eventPollerSends, hk] at hmem
        · rintro ⟨h1, h2⟩
          injection h1 with h3
          injection h3 with h4
          subst h4
          exact absurd h2 hk
        · intro hmem
          simp [eventPollerSends, hk] at hmem
        · rintro ⟨h1, h2⟩
          injection h1 with h3
          injection h3 with h4
          subst h4
          exact absurd h2 hk
    | Mouse m => cases tickDue <;> simp [eventPollerSends]
    | Resize w h => cases tickDue <;> simp [eventPollerSends]
    | FocusLost => cases tickDue <;> simp [eventPollerSends]
    | FocusGained => cases tickDue <;> simp [eventPollerSends]
    | Paste s => cases tickDue <;> simp [eventPollerSends]

/-- C2 (confirmed): a key event received while the poller services its race
loop is published on the channel if and only if its kind is `Press`;
release- and repeat-kind key events are never published.  The same holds for
the thread-based `event_poller` in `src/event.rs`. -/
theorem key_press_filter :
    (∀ (ws : List RaceWinner) (k : KeyEvent),
      TuiEvent.Key k ∈ pollRun ws ↔
        (k.kind = KeyEventKind.Press ∧
          RaceWinner.input (some (Except.ok (CrosstermEvent.Key k))) ∈ liveWinners ws)) ∧
    (∀ (polled : Option CrosstermEvent) (tickDue : Bool) (k : KeyEvent),
      Event.Key k ∈ eventPollerSends polled tickDue ↔
        (polled = some (CrosstermEvent.Key k) ∧ k.kind = KeyEventKind.Press)) := by
  constructor
  · intro ws k
    have : TuiEvent.Key k ∈ pollRun ws ↔ TuiEvent.Key k ∈ pollLoop ws := by
      simp [pollRun]
    rw [this, key_mem_pollLoop]
  · exact event_key_mem

lemma countTui_append (ev : TuiEvent) (a b : List TuiEvent) :
    countTui ev (a ++ b) = countTui ev a + countTui ev b := by
  induction a with
  | nil => simp [countTui]
  | cons x xs ih => simp [countTui, ih]; omega

lemma error_count_handleInput (me : Option (Except Unit CrosstermEvent)) :
    countTui TuiEvent.Error (handleInput me) =
      (if me = some (Except.error ()) then 1 else 0) := by
  match me with
  | none => simp [handleInput, countTui]
  | some (Except.error e) => cases e; simp [handleInput, countTui]
  | some (Except.ok evt) =>
    cases evt with
    | Key key =>
      by_cases hk : key.kind = KeyEventKind.Press <;> simp [handleInput, hk, countTui]
    | Mouse m => simp [handleInput, countTui]
    | Resize x y => simp [handleInput, countTui]
    | FocusLost => simp [handleInput, countTui]
    | FocusGained => simp [handleInput, countTui]
    | Paste s => simp [handleInput, countTui]

lemma error_count_pollLoop :
    ∀ ws : List RaceWinner, countTui TuiEvent.Error (pollLoop ws) =
      countWin (RaceWinner.input (some (Except.error ()))) (liveWinners ws) := by
  intro ws
  induction ws with
  | nil => simp [pollLoop, liveWinners, countTui, countWin]
  | cons w rest ih =>
    cases w with
    | cancelled => simp [pollLoop, liveWinners, pollStep, countTui, countWin]
    | input me =>
      simp only [pollLoop, liveWinners, pollStep]
      rw [countTui_append, error_count_handleInput, ih]
      simp only [countWin]
      by_cases hme : me = some (Except.error ())
      · subst hme; simp
      · have : RaceWinner.input me ≠ RaceWinner.input (some (Except.error ())) := by
          intro hx
          injection hx with hy
          exact hme hy
        simp [hme, this]
    | tick =>
      simp only [pollLoop, liveWinners, pollStep]
      rw [countTui_append, ih]
      simp [countTui, countWin]
    | render =>
      simp only [pollLoop, liveWinners, pollStep]
      rw [countTui_append, ih]
      simp [countTui, countWin]

/-- C6 (corrected): every read error serviced by the poller loop publishes
exactly one `Error` event and the loop continues (`pollStep` returns `some`,
not the loop-exiting `none`); an exhausted input stream (`None` from the
stream) publishes nothing at all — in particular no `Closed` event — and the
loop also continues. -/
theorem read_error_publishes_error :
    (∀ ws : List RaceWinner, countTui TuiEvent.Error (pollRun ws) =
      countWin (RaceWinner.input (some (Except.error ()))) (liveWinners ws)) ∧
    pollStep (RaceWinner.input (some (Except.error ()))) = some [TuiEvent.Error] ∧
    pollStep (RaceWinner.input none) = some [] := by
  refine ⟨?_, rfl, rfl⟩
  intro ws
  have : countTui TuiEvent.Error (pollRun ws) = countTui TuiEvent.Error (pollLoop ws) := by
    simp [pollRun, countTui]
  rw [this, error_count_pollLoop]

/-- C6 counterexample: when the input stream is exhausted the poller
publishes nothing — no `Closed` event ever appears on the channel. -/
theorem closed_not_published :
    pollRun [RaceWinner.input none] = [TuiEvent.Init] ∧
    TuiEvent.Closed ∉ pollRun [RaceWinner.input none] := by decide

/-- C7 (confirmed): once the poller observes the cancellation branch of its
race it exits the loop immediately without publishing: no event arising from
race winners after the first `cancelled` is ever published. -/
theorem cancel_stops_publishing (ws rest : List RaceWinner) :
    pollLoop (ws ++ RaceWinner.cancelled :: rest) = pollLoop (ws ++ [RaceWinner.cancelled]) ∧
    pollLoop (RaceWinner.cancelled :: rest) = [] := by
  constructor
  · induction ws with
    | nil => rfl
    | cons w ws ih =>
      simp only [List.cons_append, pollLoop]
      cases hw : pollStep w <;> simp [hw, ih]
  · rfl

/-- C3 counterexample: when `enable_raw_mode` succeeds but the alternate
screen switch fails, `enter()` returns the setup error yet leaves raw mode
enabled — the flags are not as they were before the call. -/
theorem failed_enter_leaves_state :
    (enterWith failAltOracle ⟨false, false⟩ allOff).1 =
      Except.error EnterOp.enterAltHideCursor ∧
    (enterWith failAltOracle ⟨false, false⟩ allOff).2 ≠ allOff := by decide

/-- C3 (corrected): if `enter()` from a normal terminal fails because an
underlying toggle fails, it returns a setup error naming a toggle that
really failed, and the toggles completed before the failure remain in
effect (partial state is possible); a subsequent successful `exit()`
restores all four flags to off. -/
theorem failed_enter_error_and_restorable (fail : EnterOp → Bool) (c : Config) (op : EnterOp)
    (h : (enterWith fail c allOff).1 = Except.error op) :
    fail op = true ∧
    (exitWith (fun _ => false) c (enterWith fail c allOff).2).flags = allOff := by
  rcases c with ⟨m, p⟩
  cases m <;> cases p <;>
    simp only [enterWith, enterAfterMouse] at h ⊢ <;>
    split_ifs at h ⊢ <;>
    simp_all [exitWith, exitAfterPaste, exitFinal, allOff]

/-- C3 witness: the amended claim at the concrete failing toggle. -/
theorem failed_enter_error_and_restorable_witness :
    failAltOracle EnterOp.enterAltHideCursor = true ∧
    (exitWith (fun _ => false) ⟨false, false⟩
      (enterWith failAltOracle ⟨false, false⟩ allOff).2).flags = allOff :=
  failed_enter_error_and_restorable failAltOracle ⟨false, false⟩ EnterOp.enterAltHideCursor rfl

/-- C5 counterexample: `Tui::start` neither awaits nor aborts the previous
poller task before spawning the new one — no await/abort action occurs in
its action trace. -/
theorem start_no_await_abort :
    StartAction.awaitPrevTask ∉ startActions ∧
    StartAction.abortPrevTask ∉ startActions := by decide

/-- C5 (corrected): every call to `start()` cancels the previous poller's
cancellation token before spawning the new task, but it does not await or
abort the previous task; the previous poller exits its loop at the next
race iteration upon observing the cancellation, publishing nothing further,
so single-producer operation is restored only once the old task observes
the cancellation (awaiting/aborting lives in `stop()`, not `start()`). -/
theorem start_cancel_before_spawn :
    startActions.indexOf StartAction.cancelPrevToken <
      startActions.indexOf StartAction.spawnTask ∧
    StartAction.cancelPrevToken ∈ startActions ∧
    StartAction.spawnTask ∈ startActions ∧
    StartAction.awaitPrevTask ∉ startActions ∧
    StartAction.abortPrevTask ∉ startActions ∧
    ∀ rest : List RaceWinner, pollLoop (RaceWinner.cancelled :: rest) = [] := by
  refine ⟨by decide, by decide, by decide, by decide, by decide, fun rest => rfl⟩

lemma stopAux_no_fuel_exhaustion (finished : Nat → Bool) :
    ∀ (fuel counter : Nat) (ab : Bool), fuel + counter = 102 → counter ≤ 100 →
      (stopAux finished fuel counter ab).fuelExhausted = false ∧
      (stopAux finished fuel counter ab).sleeps ≤ 101 := by
  intro fuel
  induction fuel with
  | zero => intro counter ab h1 h2; omega
  | succ n ih =>
    intro counter ab h1 h2
    simp only [stopAux]
    by_cases hf : finished counter = true
    · simp [hf]
      omega
    · simp only [hf, Bool.false_eq_true, if_false]
      by_cases hc : counter + 1 > 100
      · simp [hc]
        omega
      · simp only [hc, if_false]
        exact ih (counter + 1) _ (by omega) (by omega)

lemma stopAux_never_finish (finished : Nat → Bool) (hnf : ∀ n, finished n = false) :
    ∀ (fuel counter : Nat) (ab : Bool), fuel + counter = 102 → counter ≤ 100 →
      (stopAux finished fuel counter ab).warned = true ∧
      (stopAux finished fuel counter ab).aborted = true := by
  intro fuel
  induction fuel with
  | zero => intro counter ab h1 h2; omega
  | succ n ih =>
    intro counter ab h1 h2
    simp only [stopAux, hnf counter, Bool.false_eq_true, if_false]
    by_cases hc : counter + 1 > 100
    · have h50 : counter + 1 > 50 := by omega
      simp [hc, h50]
    · simp only [hc, if_false]
      exact ih (counter + 1) _ (by omega) (by omega)

/-- C8 (confirmed): `stop()` terminates for every behaviour of the poller
task.  It invokes `cancel()`, then polls completion with 1 ms sleeps; it
performs at most 101 sleeps, its structural fuel is never exhausted (the
loop's own `counter > 100` break always fires first), and it returns
success; if the task never reports finished, `abort()` is called after the
first threshold and the warning is logged at the second. -/
theorem stop_bounded (finished : Nat → Bool) :
    (stopRun finished).res = Except.ok () ∧
    (stopRun finished).tokenCancelled = true ∧
    (stopRun finished).trace.fuelExhausted = false ∧
    (stopRun finished).trace.sleeps ≤ 101 ∧
    ((∀ n, finished n = false) →
      (stopRun finished).trace.aborted = true ∧ (stopRun finished).trace.warned = true) := by
  have h1 := stopAux_no_fuel_exhaustion finished 102 0 false rfl (by omega)
  refine ⟨rfl, rfl, h1.1, h1.2, fun hnf => ?_⟩
  have h2 := stopAux_never_finish finished hnf 102 0 false rfl (by omega)
  exact ⟨h2.2, h2.1⟩

/-- C8 witness: a task that never finishes is aborted and the warning
threshold is reached, while `stop()` still returns. -/
theorem stop_bounded_witness :
    (stopRun (fun _ => false)).trace.aborted = true ∧
    (stopRun (fun _ => false)).trace.warned = true :=
  (stop_bounded (fun _ => false)).2.2.2.2 (fun _ => rfl)

lemma applyOp_preserves_rxTaken (c : Config) (s : TuiModel) (op : TuiOp)
    (hop : op ≠ TuiOp.takeEventRx) : (applyOp c s op).rxTaken = s.rxTaken := by
  cases op <;> first | rfl | exact absurd rfl hop

lemma takeOutputs_taken (c : Config) :
    ∀ (ops : List TuiOp) (s : TuiModel), s.rxTaken = true →
      takeOutputs c s ops = List.replicate (countOps TuiOp.takeEventRx ops) false := by
  intro ops
  induction ops with
  | nil => intro s h; simp [takeOutputs, countOps]
  | cons op rest ih =>
    intro s h
    cases op <;>
      simp_all [takeOutputs, applyOp, countOps, List.replicate_succ, Nat.add_comm]

lemma takeOutputs_untaken (c : Config) :
    ∀ (ops : List TuiOp) (s : TuiModel), s.rxTaken = false →
      takeOutputs c s ops = takePattern (countOps TuiOp.takeEventRx ops) := by
  intro ops
  induction ops with
  | nil => intro s h; simp [takeOutputs, countOps, takePattern]
  | cons op rest ih =>
    intro s h
    cases op with
    | takeEventRx =>
      have htk : (applyOp c s TuiOp.takeEventRx).rxTaken = true := rfl
      have hout : takeOutputs c s (TuiOp.takeEventRx :: rest) =
          (!s.rxTaken) :: takeOutputs c (applyOp c s TuiOp.takeEventRx) rest := rfl
      rw [hout, takeOutputs_taken c rest _ htk, h]
      have hcount : countOps TuiOp.takeEventRx (TuiOp.takeEventRx :: rest) =
          countOps TuiOp.takeEventRx rest + 1 := by
        simp [countOps]
        omega
      rw [hcount]
      rfl
    | enter => simp_all [takeOutputs, applyOp, countOps]
    | exit => simp_all [takeOutputs, applyOp, countOps]
    | suspend => simp_all [takeOutputs, applyOp, countOps]
    | resume => simp_all [takeOutputs, applyOp, countOps]
    | start => simp_all [takeOutputs, applyOp, countOps]
    | stop => simp_all [takeOutputs, applyOp, countOps]
    | cancel => simp_all [takeOutputs, applyOp, countOps]

/-- C9 (confirmed): over any interleaving of the public operations on a
fresh session, the first `take_event_rx()` call returns the receiver and
every subsequent call returns `None`. -/
theorem take_event_rx_once (c : Config) (ops : List TuiOp) :
    takeOutputs c initModel ops = takePattern (countOps TuiOp.takeEventRx ops) :=
  takeOutputs_untaken c ops initModel rfl

lemma sendAll_alive : ∀ evs : List TuiEvent, sendAll true evs = Except.ok () := by
  intro evs
  induction evs with
  | nil => rfl
  | cons ev rest ih => simp [sendAll, sendUnwrap, ih]

lemma pollLoopChecked_alive :
    ∀ ws : List RaceWinner, pollLoopChecked true ws = Except.ok (pollLoop ws) := by
  intro ws
  induction ws with
  | nil => rfl
  | cons w rest ih =>
    cases hw : pollStep w <;>
      simp [pollLoopChecked, pollLoop, hw, sendAll_alive, ih]

/-- C10 (confirmed): every publish in the poller task goes through
`send(..).unwrap()`.  While the channel's consumer end is alive every send
succeeds and the run returns exactly the published events, so the panic
branch is unreachable; once the consumer has been dropped, the very next
publish attempt (starting with `Init`) panics the task, and any single send
of any event panics. -/
theorem send_unwrap_semantics (ws : List RaceWinner) :
    pollRunChecked true ws = Except.ok (pollRun ws) ∧
    pollRunChecked false ws = Except.error () ∧
    (∀ ev : TuiEvent, sendUnwrap false ev = Except.error ()) := by
  refine ⟨?_, rfl, fun ev => rfl⟩
  simp [pollRunChecked, pollRun, sendUnwrap, pollLoopChecked_alive ws]
